import Mathlib

/-!
Verification of the girder `autojoin` plugin's rule engine
(`src/plugins/autojoin/girder_autojoin/__init__.py`, function `userCreated`).

The Python source is:

```
def userCreated(event):
    user = event.info
    email = user.get('email').lower()
    rules = Setting().get(PluginSettings.AUTOJOIN)
    for rule in rules:
        if rule['pattern'].lower() not in email:
            continue
        group = Group().load(rule['groupId'], force=True)
        if group:
            Group().addUser(group, user, rule['level'])
```

We embed this shallowly: the framework collaborators (`Setting().get`,
`Group().load`, `Group().addUser`) become an explicit environment, and the
evaluation is a function producing the ordered trace of store effects plus
an optional raised error.  Python exception behaviour is mirrored exactly:
`user.get('email')` returns `None` when the key is absent and `.lower()`
then raises `AttributeError`; `rule['pattern']` raises `KeyError` when the
key is absent; an exception inside `Group().addUser` propagates and aborts
the loop.
-/

namespace Autojoin

abbrev GroupId := Nat
abbrev Level := Nat

/-- One configured auto-join rule (`AutoJoinRule`).  The `pattern` key may be
absent from the stored dict (Python raises `KeyError` on access then); the
data model guarantees `groupId` and `level`. -/
structure Rule where
  pattern : Option String
  groupId : GroupId
  level : Level
deriving DecidableEq

/-- The minimal view of a user document: the dict may lack the `email` key
(`user.get('email')` is `None` then). -/
structure User where
  email : Option String
deriving DecidableEq

/-- The framework collaborators as seen by `userCreated`:
`rules` is what `Setting().get(PluginSettings.AUTOJOIN)` returns,
`groups gid` tells whether `Group().load(gid, force=True)` returns a truthy
document, and `addUserFails gid level` tells whether the membership write
`Group().addUser` raises for this group and level. -/
structure Env where
  rules : List Rule
  groups : GroupId → Bool
  addUserFails : GroupId → Level → Bool

/-- An observable effect on the collaborator stores.  `setSetting` and
`saveUser` are in the effect vocabulary so that frame properties ("the
evaluator never writes the configuration or the user document") are
expressible; the evaluator never emits them. -/
inductive Effect where
  | readRules : Effect
  | loadGroup : GroupId → Effect
  | addUser : GroupId → Level → Effect
  | setSetting : List Rule → Effect
  | saveUser : User → Effect
deriving DecidableEq

/-- A Python exception surfaced to the caller of `userCreated`. -/
inductive Err where
  | attributeError : Err
  | keyError : Err
  | writeFailure : GroupId → Level → Err
deriving DecidableEq

/-- Python's `str.lower()`: character-wise lower-casing.  (Core's
`String.toLower` is the same map but is stated via `String.mapAux`, which
the kernel cannot reduce on literals; this definition is kernel-friendly.) -/
def strLower (s : String) : String := ⟨s.data.map Char.toLower⟩

/-- Python's substring test `pat in hay` on lists of characters:
`pat` occurs contiguously inside `hay`. -/
def containsSub (pat : List Char) : List Char → Bool
  | [] => pat.isEmpty
  | c :: rest => pat.isPrefixOf (c :: rest) || containsSub pat rest

/-- The `for rule in rules:` loop body of `userCreated`, with `email`
already lower-cased (the source lower-cases it once, before the loop).
Returns the ordered trace of store effects together with the exception
raised, if any. -/
def evalRules (env : Env) (email : String) : List Rule → List Effect × Option Err
  | [] => ([], none)
  | r :: rest =>
    match r.pattern with
    | none => ([], some .keyError)
    | some pat =>
      if !containsSub (strLower pat).data email.data then
        evalRules env email rest
      else if env.groups r.groupId then
        if env.addUserFails r.groupId r.level then
          ([.loadGroup r.groupId], some (.writeFailure r.groupId r.level))
        else
          (.loadGroup r.groupId :: .addUser r.groupId r.level ::
             (evalRules env email rest).1,
           (evalRules env email rest).2)
      else
        (.loadGroup r.groupId :: (evalRules env email rest).1,
         (evalRules env email rest).2)

/-- The event handler `userCreated`: read the user's email (raising if the
key is absent), lower-case it, read the rule list from the setting store,
and scan the rules. -/
def userCreated (env : Env) (user : User) : List Effect × Option Err :=
  match user.email with
  | none => ([], some .attributeError)
  | some e =>
    (.readRules :: (evalRules env (strLower e) env.rules).1,
     (evalRules env (strLower e) env.rules).2)

/-- Is this effect a membership write (`Group().addUser` call)? -/
def isWrite : Effect → Bool
  | .addUser _ _ => true
  | _ => false

/-- Is this effect a group-store load (`Group().load` call)? -/
def isLoad : Effect → Bool
  | .loadGroup _ => true
  | _ => false

/-- Is this effect a configuration read? -/
def isReadRules : Effect → Bool
  | .readRules => true
  | _ => false

/-- The spec's matching predicate, written from its words: the rule's
lower-cased pattern is a substring of the user's lower-cased email.  A rule
with an absent pattern is not counted as matching. -/
def ruleMatches (r : Rule) (emailLower : String) : Bool :=
  match r.pattern with
  | none => false
  | some p => containsSub (strLower p).data emailLower.data

/-- The spec's "applies" predicate: the rule matches and its `groupId`
resolves to an existing group. -/
def ruleApplies (env : Env) (r : Rule) (emailLower : String) : Bool :=
  ruleMatches r emailLower && env.groups r.groupId

/-- Modelled from the spec: `Group().addUser` (the membership store's
`addMember`) is not under `src/`; the spec specifies it as an idempotent
write that creates no duplicate membership record and never downgrades an
equal-or-higher existing level.  Membership (for the one user under
evaluation) is a map from group id to the granted level; a write grants at
least `l` and never lowers an existing level. -/
def addMember (m : GroupId → Option Level) (g : GroupId) (l : Level) :
    GroupId → Option Level :=
  fun g' => if g' = g then some (max l ((m g).getD 0)) else m g'

/-- Replay a trace of effects against the membership map; only membership
writes change it. -/
def applyEffects (m : GroupId → Option Level) : List Effect → GroupId → Option Level
  | [] => m
  | .addUser g l :: es => applyEffects (addMember m g l) es
  | .readRules :: es => applyEffects m es
  | .loadGroup _ :: es => applyEffects m es
  | .setSetting _ :: es => applyEffects m es
  | .saveUser _ :: es => applyEffects m es

/-- The levels written to group `g` by a trace, in order. -/
def levelsAt (g : GroupId) : List Effect → List Level
  | [] => []
  | .addUser g' l :: es => if g' = g then l :: levelsAt g es else levelsAt g es
  | .readRules :: es => levelsAt g es
  | .loadGroup _ :: es => levelsAt g es
  | .setSetting _ :: es => levelsAt g es
  | .saveUser _ :: es => levelsAt g es

/-- Fold a sequence of membership writes for one group over its current
level, mirroring `addMember` pointwise. -/
def valFold (v : Option Level) : List Level → Option Level
  | [] => v
  | l :: ls => valFold (some (max l (v.getD 0))) ls

/-- The whole collaborator state: the rule configuration, the user
document, and the membership map. -/
structure Store where
  settings : List Rule
  userDoc : User
  membership : GroupId → Option Level

/-- Replay a trace of effects against the whole store. -/
def applyStore (s : Store) : List Effect → Store
  | [] => s
  | .addUser g l :: es =>
      applyStore { s with membership := addMember s.membership g l } es
  | .setSetting rs :: es => applyStore { s with settings := rs } es
  | .saveUser u :: es => applyStore { s with userDoc := u } es
  | .readRules :: es => applyStore s es
  | .loadGroup _ :: es => applyStore s es

/-! ### Concrete fixtures used to instantiate the theorems -/

/-- A membership store in which no write fails. -/
def noFail : GroupId → Level → Bool := fun _ _ => false

/-- Three rules: one matching and resolvable, one non-matching, one
matching but dangling (group 3 does not exist). -/
def envA : Env :=
  { rules := [{ pattern := some "B.COM", groupId := 1, level := 2 },
              { pattern := some "zzz", groupId := 2, level := 0 },
              { pattern := some "", groupId := 3, level := 1 }],
    groups := fun g => g == 1 || g == 2,
    addUserFails := noFail }

def userA : User := { email := some "A@b.com" }

def userB : User := { email := some "a@b" }

def userNoEmail : User := { email := none }

/-- A non-matching rule, then a matching rule whose group 9 is dangling,
then a matching resolvable rule. -/
def envDangling : Env :=
  { rules := [{ pattern := some "q", groupId := 1, level := 0 },
              { pattern := some "", groupId := 9, level := 2 },
              { pattern := some "", groupId := 1, level := 0 }],
    groups := fun g => g == 1,
    addUserFails := noFail }

/-- A single rule whose stored dict lacks the `pattern` key. -/
def envKeyErr : Env :=
  { rules := [{ pattern := none, groupId := 0, level := 0 }],
    groups := fun _ => true,
    addUserFails := noFail }

/-- A single empty-pattern rule targeting group 7. -/
def envEmptyPat : Env :=
  { rules := [{ pattern := some "", groupId := 7, level := 1 }],
    groups := fun _ => false,
    addUserFails := noFail }

/-- A single upper-case-pattern rule. -/
def envCase : Env :=
  { rules := [{ pattern := some "EXAMPLE.COM", groupId := 4, level := 0 }],
    groups := fun _ => true,
    addUserFails := noFail }

def userCase : User := { email := some "user@example.com" }

/-- Two rules matching the same email, targeting distinct groups. -/
def envTwo : Env :=
  { rules := [{ pattern := some "A@", groupId := 5, level := 1 },
              { pattern := some "@B", groupId := 6, level := 2 }],
    groups := fun _ => true,
    addUserFails := noFail }

/-- Writes to group 2 fail; the first rule does not match, the second
matches and its write fails, the third would apply but is never reached. -/
def envFailWrite : Env :=
  { rules := [{ pattern := some "q", groupId := 1, level := 0 },
              { pattern := some "", groupId := 2, level := 3 },
              { pattern := some "", groupId := 1, level := 0 }],
    groups := fun _ => true,
    addUserFails := fun g _ => g == 2 }

def envEmptyRules : Env :=
  { rules := [], groups := fun _ => true, addUserFails := noFail }

def memEmpty : GroupId → Option Level := fun _ => none

def storeA : Store :=
  { settings := [{ pattern := some "x", groupId := 0, level := 0 }],
    userDoc := userB,
    membership := memEmpty }

/-! ### Helper lemmas about the evaluator -/

/-- `containsSub` decides substring containment (`List.IsInfix`). -/
theorem containsSub_decides_substring {p l : List Char} :
    containsSub p l = true ↔ p <:+: l := by
  induction l with
  | nil => simp [containsSub, List.isEmpty_iff]
  | cons c rest ih =>
      simp [containsSub, List.isPrefixOf_iff_prefix, ih, List.infix_cons_iff]

/-- Scanning a concatenation of rule lists: if the first part raises, the
second is never reached. -/
theorem evalRules_append_err (env : Env) (email : String) (xs ys : List Rule)
    (er : Err) (h : (evalRules env email xs).2 = some er) :
    evalRules env email (xs ++ ys) = ((evalRules env email xs).1, some er) := by
  induction xs with
  | nil => simp [evalRules] at h
  | cons r rest ih =>
      cases hp : r.pattern with
      | none => simp [evalRules, hp] at h ⊢; exact h
      | some pat =>
          by_cases hm : containsSub (strLower pat).data email.data
          · by_cases hg : env.groups r.groupId
            · by_cases hf : env.addUserFails r.groupId r.level
              · simp [evalRules, hp, hm, hg, hf] at h ⊢; exact h
              · simp [evalRules, hp, hm, hg, hf] at h ⊢
                simp [ih h]
            · simp [evalRules, hp, hm, hg] at h ⊢
              simp [ih h]
          · simp [evalRules, hp, hm] at h ⊢; exact ih h

/-- Scanning a concatenation of rule lists: if the first part completes
normally its effects are followed by the second part's scan. -/
theorem evalRules_append_ok (env : Env) (email : String) (xs ys : List Rule)
    (h : (evalRules env email xs).2 = none) :
    evalRules env email (xs ++ ys) =
      ((evalRules env email xs).1 ++ (evalRules env email ys).1,
       (evalRules env email ys).2) := by
  induction xs with
  | nil => simp [evalRules]
  | cons r rest ih =>
      cases hp : r.pattern with
      | none => simp [evalRules, hp] at h
      | some pat =>
          by_cases hm : containsSub (strLower pat).data email.data
          · by_cases hg : env.groups r.groupId
            · by_cases hf : env.addUserFails r.groupId r.level
              · simp [evalRules, hp, hm, hg, hf] at h
              · simp [evalRules, hp, hm, hg, hf] at h ⊢
                simp [ih h]
            · simp [evalRules, hp, hm, hg] at h ⊢
              simp [ih h]
          · simp [evalRules, hp, hm] at h ⊢; exact ih h

/-- Every effect the rule scan emits is a group load or a membership
write: the scan never reads the configuration again and never writes the
configuration or the user document. -/
theorem evalRules_shape (env : Env) (email : String) :
    ∀ rules : List Rule, ∀ e ∈ (evalRules env email rules).1,
      isLoad e = true ∨ isWrite e = true := by
  intro rules
  induction rules with
  | nil => simp [evalRules]
  | cons r rest ih =>
      intro e he
      cases hp : r.pattern with
      | none => simp [evalRules, hp] at he
      | some pat =>
          by_cases hm : containsSub (strLower pat).data email.data
          · by_cases hg : env.groups r.groupId
            · by_cases hf : env.addUserFails r.groupId r.level
              · simp [evalRules, hp, hm, hg, hf] at he
                subst he; simp [isLoad]
              · simp [evalRules, hp, hm, hg, hf] at he
                rcases he with rfl | rfl | he
                · simp [isLoad]
                · simp [isWrite]
                · exact ih e he
            · simp [evalRules, hp, hm, hg] at he
              rcases he with rfl | he
              · simp [isLoad]
              · exact ih e he
          · simp [evalRules, hp, hm] at he
            exact ih e he

/-- The scan issues at most one group-store load per rule. -/
theorem evalRules_loads_le (env : Env) (email : String) :
    ∀ rules : List Rule,
      (evalRules env email rules).1.countP isLoad ≤ rules.length := by
  intro rules
  induction rules with
  | nil => simp [evalRules]
  | cons r rest ih =>
      cases hp : r.pattern with
      | none => simp [evalRules, hp]
      | some pat =>
          by_cases hm : containsSub (strLower pat).data email.data
          · by_cases hg : env.groups r.groupId
            · by_cases hf : env.addUserFails r.groupId r.level
              · simp [evalRules, hp, hm, hg, hf, List.countP_cons, isLoad]
              · simp [evalRules, hp, hm, hg, hf, List.countP_cons, isLoad]
                omega
            · simp [evalRules, hp, hm, hg, List.countP_cons, isLoad]
              omega
          · simp [evalRules, hp, hm]
            exact Nat.le_succ_of_le ih

/-- Normal-operation characterisation of the scan: when every rule carries
a pattern and no membership write fails, the scan raises nothing and its
membership writes are exactly the applying rules, in stored order. -/
theorem evalRules_normal (env : Env) (email : String) :
    ∀ rules : List Rule,
      (∀ r ∈ rules, (r.pattern).isSome) →
      (∀ r ∈ rules, env.addUserFails r.groupId r.level = false) →
      (evalRules env email rules).2 = none ∧
      (evalRules env email rules).1.filter isWrite =
        (rules.filter (fun r => ruleApplies env r email)).map
          (fun r => Effect.addUser r.groupId r.level) := by
  intro rules
  induction rules with
  | nil => intro _ _; simp [evalRules]
  | cons r rest ih =>
      intro hpat hfail
      have hr : (r.pattern).isSome := hpat r (by simp)
      cases hp : r.pattern with
      | none => rw [hp] at hr; simp at hr
      | some pat =>
          have hfr : env.addUserFails r.groupId r.level = false :=
            hfail r (by simp)
          have ihr := ih (fun x hx => hpat x (by simp [hx]))
            (fun x hx => hfail x (by simp [hx]))
          by_cases hm : containsSub (strLower pat).data email.data
          · by_cases hg : env.groups r.groupId
            · simp [evalRules, hp, hm, hg, hfr, List.filter_cons, isWrite,
                ruleApplies, ruleMatches, ihr.1, ihr.2]
            · simp [evalRules, hp, hm, hg, List.filter_cons, isWrite,
                ruleApplies, ruleMatches, ihr.1, ihr.2]
          · simp [evalRules, hp, hm, List.filter_cons, isWrite,
              ruleApplies, ruleMatches, ihr.1, ihr.2]

/-- The empty pattern is a substring of everything. -/
theorem containsSub_nil (l : List Char) : containsSub [] l = true := by
  cases l <;> simp [containsSub]

/-- Pointwise description of trace replay: the final level of group `g`
is the fold of the writes aimed at `g`. -/
theorem applyEffects_levels (g : GroupId) :
    ∀ (es : List Effect) (m : GroupId → Option Level),
      applyEffects m es g = valFold (m g) (levelsAt g es) := by
  intro es
  induction es with
  | nil => intro m; rfl
  | cons e rest ih =>
      intro m
      cases e with
      | addUser gw l =>
          by_cases hg : gw = g
          · subst hg
            simp [applyEffects, levelsAt, ih, addMember, valFold]
          · simp [applyEffects, levelsAt, hg, ih, addMember, Ne.symm hg]
      | readRules => simp [applyEffects, levelsAt, ih]
      | loadGroup gid => simp [applyEffects, levelsAt, ih]
      | setSetting rs => simp [applyEffects, levelsAt, ih]
      | saveUser uu => simp [applyEffects, levelsAt, ih]

/-- Folding writes over a present level yields a level bounding the start
level and every written level. -/
theorem valFold_bound (L : List Level) :
    ∀ a : Level, ∃ M, valFold (some a) L = some M ∧ a ≤ M ∧ ∀ x ∈ L, x ≤ M := by
  induction L with
  | nil => intro a; exact ⟨a, rfl, le_refl a, by simp⟩
  | cons l ls ih =>
      intro a
      obtain ⟨M, hM, haM, hall⟩ := ih (max l a)
      refine ⟨M, by simpa [valFold] using hM, le_trans (le_max_right l a) haM, ?_⟩
      intro x hx
      rcases List.mem_cons.1 hx with rfl | hx
      · exact le_trans (le_max_left x a) haM
      · exact hall x hx

/-- Replaying writes that are all bounded by the current level changes
nothing. -/
theorem valFold_const (M : Level) :
    ∀ L : List Level, (∀ x ∈ L, x ≤ M) → valFold (some M) L = some M := by
  intro L
  induction L with
  | nil => intro _; rfl
  | cons l ls ih =>
      intro h
      have hl : l ≤ M := h l (by simp)
      have : valFold (some M) (l :: ls) = valFold (some (max l M)) ls := rfl
      rw [this, Nat.max_eq_right hl]
      exact ih (fun x hx => h x (by simp [hx]))

/-- Folding the same write sequence twice is the same as folding it
once. -/
theorem valFold_idem (v : Option Level) (L : List Level) :
    valFold (valFold v L) L = valFold v L := by
  cases L with
  | nil => rfl
  | cons l ls =>
      obtain ⟨M, hM, haM, hall⟩ := valFold_bound ls (max l (v.getD 0))
      have h1 : valFold v (l :: ls) = some M := by simpa [valFold] using hM
      rw [h1]
      have hl : l ≤ M := le_trans (le_max_left _ _) haM
      have h2 : valFold (some M) (l :: ls) = valFold (some (max l M)) ls := by
        simp [valFold]
      rw [h2, Nat.max_eq_right hl]
      exact valFold_const M ls hall

/-- Replaying any trace twice against the membership map equals replaying
it once: membership writes are idempotent in bulk. -/
theorem applyEffects_idem (es : List Effect) (m : GroupId → Option Level) :
    applyEffects (applyEffects m es) es = applyEffects m es := by
  funext g
  calc applyEffects (applyEffects m es) es g
      = valFold (applyEffects m es g) (levelsAt g es) :=
        applyEffects_levels g es _
    _ = valFold (valFold (m g) (levelsAt g es)) (levelsAt g es) := by
        rw [applyEffects_levels g es m]
    _ = valFold (m g) (levelsAt g es) := valFold_idem _ _
    _ = applyEffects m es g := (applyEffects_levels g es m).symm

/-- A trace of configuration reads, group loads and membership writes
leaves the configuration and the user document untouched. -/
theorem applyStore_frame :
    ∀ (es : List Effect) (s : Store),
      (∀ e ∈ es, isLoad e = true ∨ isWrite e = true ∨ isReadRules e = true) →
      (applyStore s es).settings = s.settings ∧
      (applyStore s es).userDoc = s.userDoc := by
  intro es
  induction es with
  | nil => intro s _; exact ⟨rfl, rfl⟩
  | cons e rest ih =>
      intro s h
      have he := h e (by simp)
      have hrest := fun x (hx : x ∈ rest) => h x (List.mem_cons_of_mem _ hx)
      cases e with
      | addUser gw l => simpa [applyStore] using ih _ hrest
      | readRules => simpa [applyStore] using ih _ hrest
      | loadGroup gid => simpa [applyStore] using ih _ hrest
      | setSetting rs => simp [isLoad, isWrite, isReadRules] at he
      | saveUser uu => simp [isLoad, isWrite, isReadRules] at he

/-! ### The claims -/

/-- C1: for a user with an email and a rule set in which every rule carries
a pattern (the membership store raising nothing), `userCreated` raises no
error and performs exactly as many membership writes (`addUser` calls) as
there are rules whose lower-cased pattern is a substring of the lower-cased
email and whose `groupId` resolves to an existing group. -/
theorem writes_count_eq_applying_rules (env : Env) (u : User) (em : String)
    (he : u.email = some em)
    (hp : ∀ r ∈ env.rules, (r.pattern).isSome)
    (hf : ∀ r ∈ env.rules, env.addUserFails r.groupId r.level = false) :
    (userCreated env u).2 = none ∧
    (userCreated env u).1.countP isWrite =
      env.rules.countP (fun r => ruleApplies env r (strLower em)) := by
  have h := evalRules_normal env (strLower em) env.rules hp hf
  constructor
  · simp [userCreated, he, h.1]
  · have htr : (userCreated env u).1 =
        .readRules :: (evalRules env (strLower em) env.rules).1 := by
      simp [userCreated, he]
    rw [htr, List.countP_cons_of_neg _ _ (by simp [isWrite]),
      List.countP_eq_length_filter, h.2, List.length_map,
      ← List.countP_eq_length_filter]

/-- C1 witness: on `envA` (one applying rule, one non-matching rule, one
dangling rule) exactly one write happens. -/
theorem writes_count_eq_applying_rules_witness :
    (userCreated envA userA).2 = none ∧
    (userCreated envA userA).1.countP isWrite =
      envA.rules.countP (fun r => ruleApplies envA r (strLower "A@b.com")) :=
  writes_count_eq_applying_rules envA userA "A@b.com" rfl (by decide) (by decide)

/-- C3: a rule's group-resolution step is reached exactly when its
lower-cased pattern occurs as a plain substring (`List.IsInfix`) of the
user's lower-cased email — no wildcard or regex semantics. -/
theorem match_iff_substring (env : Env) (u : User) (em p : String)
    (g : GroupId) (l : Level)
    (he : u.email = some em)
    (hr : env.rules = [{ pattern := some p, groupId := g, level := l }]) :
    Effect.loadGroup g ∈ (userCreated env u).1 ↔
      (strLower p).data <:+: (strLower em).data := by
  rw [← containsSub_decides_substring]
  by_cases hm : containsSub (strLower p).data (strLower em).data
  · by_cases hg : env.groups g
    · by_cases hfl : env.addUserFails g l <;>
        simp [userCreated, he, hr, evalRules, hm, hg, hfl]
    · simp [userCreated, he, hr, evalRules, hm, hg]
  · simp [userCreated, he, hr, evalRules, hm]

/-- C3 witness: pattern `"EXAMPLE.COM"` matches `user@example.com`. -/
theorem match_iff_substring_witness :
    Effect.loadGroup 4 ∈ (userCreated envCase userCase).1 :=
  (match_iff_substring envCase userCase "user@example.com" "EXAMPLE.COM" 4 0
    rfl rfl).mpr (containsSub_decides_substring.mp (by decide))

/-- C4: when the user record has no email, `userCreated` raises before the
configuration is even read: the trace is empty (no write, no load, no
configuration read) and the error is surfaced to the caller. -/
theorem missing_email_raises (env : Env) (u : User) (he : u.email = none) :
    userCreated env u = ([], some Err.attributeError) := by
  simp [userCreated, he]

/-- C4 witness. -/
theorem missing_email_raises_witness :
    userCreated envA userNoEmail = ([], some Err.attributeError) :=
  missing_email_raises envA userNoEmail rfl

/-- C2: a matching rule whose `groupId` does not resolve is skipped
silently: the evaluation raises nothing on its account, only its group load
appears in the trace (no membership write), and the rules before and after
it are scanned exactly as they would otherwise be. -/
theorem dangling_rule_skipped (env : Env) (u : User) (em p : String)
    (pre post : List Rule) (r : Rule)
    (he : u.email = some em)
    (hr : env.rules = pre ++ r :: post)
    (hpre : (evalRules env (strLower em) pre).2 = none)
    (hp : r.pattern = some p)
    (hm : containsSub (strLower p).data (strLower em).data = true)
    (hg : env.groups r.groupId = false) :
    userCreated env u =
      (.readRules :: (evalRules env (strLower em) pre).1 ++
         .loadGroup r.groupId :: (evalRules env (strLower em) post).1,
       (evalRules env (strLower em) post).2) := by
  have happ := evalRules_append_ok env (strLower em) pre (r :: post) hpre
  have hcons : evalRules env (strLower em) (r :: post) =
      (Effect.loadGroup r.groupId :: (evalRules env (strLower em) post).1,
       (evalRules env (strLower em) post).2) := by
    simp [evalRules, hp, hm, hg]
  simp [userCreated, he, hr, happ, hcons]

/-- C2 witness: on `envDangling` the dangling rule (group 9) contributes
only a load, while the rule after it still applies. -/
theorem dangling_rule_skipped_witness :
    userCreated envDangling userB =
      ([Effect.readRules, Effect.loadGroup 9, Effect.loadGroup 1,
        Effect.addUser 1 0], none) :=
  (dangling_rule_skipped envDangling userB "a@b" ""
    [{ pattern := some "q", groupId := 1, level := 0 }]
    [{ pattern := some "", groupId := 1, level := 0 }]
    { pattern := some "", groupId := 9, level := 2 }
    rfl rfl (by decide) rfl (by decide) (by decide)).trans (by decide)

/-- C5 counterexample: a rule whose `pattern` key is missing does not match
every email — `rule['pattern']` raises `KeyError`, so the group-resolution
step is never reached and the scan aborts. -/
theorem missing_pattern_raises_counterexample :
    userCreated envKeyErr userB = ([Effect.readRules], some Err.keyError) ∧
    Effect.loadGroup 0 ∉ (userCreated envKeyErr userB).1 := by
  decide

/-- C5 (amended): a rule whose pattern is the empty string matches every
email, so its group-resolution step is reached; a rule whose pattern key is
missing entirely instead raises `KeyError` and its group resolution is
never reached. -/
theorem empty_pattern_matches_every_email :
    (∀ (env : Env) (u : User) (em : String) (g : GroupId) (l : Level)
       (rest : List Rule),
       u.email = some em →
       env.rules = { pattern := some "", groupId := g, level := l } :: rest →
       Effect.loadGroup g ∈ (userCreated env u).1) ∧
    (∀ (env : Env) (u : User) (em : String) (g : GroupId) (l : Level)
       (rest : List Rule),
       u.email = some em →
       env.rules = { pattern := none, groupId := g, level := l } :: rest →
       userCreated env u = ([Effect.readRules], some Err.keyError)) := by
  constructor
  · intro env u em g l rest he hr
    have hm : containsSub (strLower "").data (strLower em).data = true := by
      have h0 : (strLower "").data = [] := rfl
      rw [h0]; exact containsSub_nil _
    by_cases hg : env.groups g
    · by_cases hfl : env.addUserFails g l <;>
        simp [userCreated, he, hr, evalRules, hm, hg, hfl]
    · simp [userCreated, he, hr, evalRules, hm, hg]
  · intro env u em g l rest he hr
    simp [userCreated, he, hr, evalRules]

/-- C5 witness: the empty-pattern rule of `envEmptyPat` reaches group
resolution on `a@b`; the pattern-less rule of `envKeyErr` raises. -/
theorem empty_pattern_matches_every_email_witness :
    Effect.loadGroup 7 ∈ (userCreated envEmptyPat userB).1 ∧
    userCreated envKeyErr userB = ([Effect.readRules], some Err.keyError) :=
  ⟨empty_pattern_matches_every_email.1 envEmptyPat userB "a@b" 7 1 [] rfl rfl,
   empty_pattern_matches_every_email.2 envKeyErr userB "a@b" 0 0 [] rfl rfl⟩

/-- C6: no early exit on a match — a user whose email matches two rules
targeting two distinct resolvable groups gets both membership writes in a
single evaluation and ends up a member of both groups. -/
theorem multiple_matches_join_both (env : Env) (u : User) (em p1 p2 : String)
    (r1 r2 : Rule) (m : GroupId → Option Level)
    (he : u.email = some em)
    (hr : env.rules = [r1, r2])
    (hp1 : r1.pattern = some p1) (hp2 : r2.pattern = some p2)
    (hm1 : containsSub (strLower p1).data (strLower em).data = true)
    (hm2 : containsSub (strLower p2).data (strLower em).data = true)
    (hg1 : env.groups r1.groupId = true) (hg2 : env.groups r2.groupId = true)
    (hf1 : env.addUserFails r1.groupId r1.level = false)
    (hf2 : env.addUserFails r2.groupId r2.level = false)
    (hne : r1.groupId ≠ r2.groupId) :
    Effect.addUser r1.groupId r1.level ∈ (userCreated env u).1 ∧
    Effect.addUser r2.groupId r2.level ∈ (userCreated env u).1 ∧
    (applyEffects m (userCreated env u).1 r1.groupId).isSome ∧
    (applyEffects m (userCreated env u).1 r2.groupId).isSome := by
  have htr : (userCreated env u).1 =
      [.readRules, .loadGroup r1.groupId, .addUser r1.groupId r1.level,
       .loadGroup r2.groupId, .addUser r2.groupId r2.level] := by
    simp [userCreated, he, hr, evalRules, hp1, hp2, hm1, hm2, hg1, hg2,
      hf1, hf2]
  rw [htr]
  refine ⟨by simp, by simp, ?_, ?_⟩
  · simp [applyEffects, addMember, hne, Ne.symm hne]
  · simp [applyEffects, addMember]

/-- C6 witness: `a@b` matches both rules of `envTwo` and joins groups 5
and 6. -/
theorem multiple_matches_join_both_witness :
    Effect.addUser 5 1 ∈ (userCreated envTwo userB).1 ∧
    Effect.addUser 6 2 ∈ (userCreated envTwo userB).1 ∧
    (applyEffects memEmpty (userCreated envTwo userB).1 5).isSome ∧
    (applyEffects memEmpty (userCreated envTwo userB).1 6).isSome :=
  multiple_matches_join_both envTwo userB "a@b" "A@" "@B"
    { pattern := some "A@", groupId := 5, level := 1 }
    { pattern := some "@B", groupId := 6, level := 2 }
    memEmpty rfl rfl rfl rfl (by decide) (by decide) rfl rfl rfl rfl
    (by decide)

/-- C7: rules are scanned strictly in stored order — the membership writes
of one evaluation are exactly the applying rules mapped to writes, in that
order (so duplicates are evaluated independently) — and the configuration
is read exactly once per evaluation. -/
theorem writes_follow_rule_order (env : Env) (u : User) (em : String)
    (he : u.email = some em)
    (hp : ∀ r ∈ env.rules, (r.pattern).isSome)
    (hf : ∀ r ∈ env.rules, env.addUserFails r.groupId r.level = false) :
    (userCreated env u).1.filter isWrite =
      (env.rules.filter (fun r => ruleApplies env r (strLower em))).map
        (fun r => Effect.addUser r.groupId r.level) ∧
    (userCreated env u).1.countP isReadRules = 1 := by
  have h := evalRules_normal env (strLower em) env.rules hp hf
  have htr : (userCreated env u).1 =
      .readRules :: (evalRules env (strLower em) env.rules).1 := by
    simp [userCreated, he]
  constructor
  · rw [htr, List.filter_cons_of_neg (by simp [isWrite]), h.2]
  · rw [htr, List.countP_cons_of_pos _ _ (by simp [isReadRules])]
    have hz : (evalRules env (strLower em) env.rules).1.countP isReadRules
        = 0 := by
      rw [List.countP_eq_zero]
      intro e hemem
      cases e with
      | readRules =>
          rcases evalRules_shape env (strLower em) env.rules _ hemem with hL | hW
          · simp [isLoad] at hL
          · simp [isWrite] at hW
      | loadGroup g => simp [isReadRules]
      | addUser g l => simp [isReadRules]
      | setSetting rs => simp [isReadRules]
      | saveUser uu => simp [isReadRules]
    rw [hz]

/-- C7 witness: on `envA` the writes are exactly the single applying rule's
write, and the configuration is read once. -/
theorem writes_follow_rule_order_witness :
    (userCreated envA userA).1.filter isWrite =
      (envA.rules.filter
        (fun r => ruleApplies envA r (strLower "A@b.com"))).map
        (fun r => Effect.addUser r.groupId r.level) ∧
    (userCreated envA userA).1.countP isReadRules = 1 :=
  writes_follow_rule_order envA userA "A@b.com" rfl (by decide) (by decide)

/-- C8: evaluation is idempotent on the membership state: replaying the
trace of `userCreated` a second time (same user, same rules, no external
changes, the store's idempotent no-downgrade `addMember`) leaves the
membership map exactly as after the first evaluation — no duplicate
membership record, no level downgrade. -/
theorem evaluation_idempotent (env : Env) (u : User)
    (m : GroupId → Option Level) :
    applyEffects (applyEffects m (userCreated env u).1) (userCreated env u).1
      = applyEffects m (userCreated env u).1 :=
  applyEffects_idem _ _

/-- C9: a failing membership write propagates: the evaluator installs no
handler of its own, the error surfaces to the caller of `userCreated`, and
no rule after the failing one is evaluated or applied. -/
theorem write_failure_propagates (env : Env) (u : User) (em p : String)
    (pre post : List Rule) (r : Rule)
    (he : u.email = some em)
    (hr : env.rules = pre ++ r :: post)
    (hpp : ∀ x ∈ pre, (x.pattern).isSome)
    (hpf : ∀ x ∈ pre, env.addUserFails x.groupId x.level = false)
    (hp : r.pattern = some p)
    (hm : containsSub (strLower p).data (strLower em).data = true)
    (hg : env.groups r.groupId = true)
    (hf : env.addUserFails r.groupId r.level = true) :
    userCreated env u =
      (.readRules :: (evalRules env (strLower em) pre).1 ++
         [Effect.loadGroup r.groupId],
       some (Err.writeFailure r.groupId r.level)) := by
  have hpre := (evalRules_normal env (strLower em) pre hpp hpf).1
  have happ := evalRules_append_ok env (strLower em) pre (r :: post) hpre
  have hcons : evalRules env (strLower em) (r :: post) =
      ([Effect.loadGroup r.groupId],
       some (Err.writeFailure r.groupId r.level)) := by
    simp [evalRules, hp, hm, hg, hf]
  simp [userCreated, he, hr, happ, hcons]

/-- C9 witness: on `envFailWrite` the write to group 2 fails; the error
surfaces and the third rule (which would apply) is never reached. -/
theorem write_failure_propagates_witness :
    userCreated envFailWrite userB =
      ([Effect.readRules, Effect.loadGroup 2],
       some (Err.writeFailure 2 3)) :=
  (write_failure_propagates envFailWrite userB "a@b" ""
    [{ pattern := some "q", groupId := 1, level := 0 }]
    [{ pattern := some "", groupId := 1, level := 0 }]
    { pattern := some "", groupId := 2, level := 3 }
    rfl rfl (by decide) (by decide) rfl (by decide) rfl
    (by decide)).trans (by decide)

/-- C10: frame property — the only state an evaluation changes is the
membership store: the rule configuration and the user document come out of
a replay of the trace unchanged, at most one group load is issued per
rule, and on an empty rule set the call returns normally having done
nothing but the single configuration read. -/
theorem evaluation_frame (env : Env) (u : User) (s : Store) :
    (applyStore s (userCreated env u).1).settings = s.settings ∧
    (applyStore s (userCreated env u).1).userDoc = s.userDoc ∧
    (userCreated env u).1.countP isLoad ≤ env.rules.length ∧
    (∀ em, u.email = some em → env.rules = [] →
       userCreated env u = ([Effect.readRules], none)) := by
  cases hu : u.email with
  | none => simp [userCreated, hu, applyStore]
  | some em =>
      have htr : (userCreated env u).1 =
          .readRules :: (evalRules env (strLower em) env.rules).1 := by
        simp [userCreated, hu]
      have hshape : ∀ e ∈ (userCreated env u).1,
          isLoad e = true ∨ isWrite e = true ∨ isReadRules e = true := by
        rw [htr]
        intro e hemem
        rcases List.mem_cons.1 hemem with rfl | hemem
        · right; right; rfl
        · rcases evalRules_shape env (strLower em) env.rules e hemem with h | h
          · exact Or.inl h
          · exact Or.inr (Or.inl h)
      have hframe := applyStore_frame (userCreated env u).1 s hshape
      refine ⟨hframe.1, hframe.2, ?_, ?_⟩
      · rw [htr, List.countP_cons_of_neg _ _ (by simp [isLoad])]
        exact evalRules_loads_le env (strLower em) env.rules
      · intro em' hem' hrules
        simp [userCreated, hu, hrules, evalRules]

/-- C10 witness: with no configured rules, evaluation performs only the
configuration read and changes nothing. -/
theorem evaluation_frame_witness :
    (applyStore storeA (userCreated envEmptyRules userA).1).settings =
      storeA.settings ∧
    userCreated envEmptyRules userA = ([Effect.readRules], none) :=
  ⟨(evaluation_frame envEmptyRules userA storeA).1,
   (evaluation_frame envEmptyRules userA storeA).2.2.2 "A@b.com" rfl rfl⟩

end Autojoin
